import Mathlib

/-!
# dma-buf-texture-sharing: a shallow embedding of `main.c`

The C program is embedded as follows.

* `int` pixel values are `Int`; the only values ever stored are the four colour
  constants, and `rotate_data` only moves values, so no `int` arithmetic can wrap.
* `size_t` values are `Nat`.  Every index computed by `create_data` and `rotate_data`
  is at most `size`, itself a `size_t`, so no `size_t` arithmetic wraps.
* `size_t edge = sqrt(size)` is the integer square root `Nat.sqrt size`; only runs in
  which the following `assert(edge * edge == size)` passes go on, and on a perfect square
  the C value is the exact root.
* A C array is a `List Int`.  Reads and writes are bounds checked: an access outside
  the array is the fault `Fault.out_of_bounds`, a failed `assert` is `Fault.assertion`.
-/

namespace DmaBuf

/-! ## Pixel arrays -/

/-- Ways in which a run of the array code can go wrong. -/
inductive Fault where
  | assertion
  | out_of_bounds
  deriving DecidableEq, Repr

/-- The read `data[i]` of a C array, bounds checked. -/
def readAt (data : List Int) (i : Nat) : Except Fault Int :=
  match data[i]? with
  | some v => .ok v
  | none => .error Fault.out_of_bounds

/-- The write `data[i] = v` of a C array, bounds checked. -/
def writeAt (data : List Int) (i : Nat) (v : Int) : Except Fault (List Int) :=
  if i < data.length then .ok (data.set i v) else .error Fault.out_of_bounds

/-- Colour `int red = 0x000000FF`. -/
def red : Int := 0x000000FF
/-- Colour `int green = 0x0000FF00`. -/
def green : Int := 0x0000FF00
/-- Colour `int blue = 0X00FF0000`. -/
def blue : Int := 0x00FF0000
/-- Colour `int white = 0x00FFFFFF`. -/
def white : Int := 0x00FFFFFF

/-- The body of the `for` loop of `create_data`: the write `data[i] = colour`. -/
def create_body (edge half_edge : Nat) (data : List Int) (i : Nat) :
    Except Fault (List Int) :=
  let x := i % edge
  let y := i / edge
  if x < half_edge then
    if y < half_edge then writeAt data i red else writeAt data i blue
  else
    if y < half_edge then writeAt data i green else writeAt data i white

/-- Function `create_data(size)`.  The argument `fresh` is the content of the block that
`malloc(size * sizeof(int))` returns, `size` cells of unspecified content; the allocation is
taken to succeed. -/
def create_data (fresh : List Int) (size : Nat) : Except Fault (List Int) :=
  let edge := Nat.sqrt size
  if edge * edge = size then
    let half_edge := edge / 2
    (List.range size).foldlM (create_body edge half_edge) fresh
  else .error Fault.assertion

/-- The body of the `for` loop of `rotate_data`, statement by statement. -/
def rotate_body (edge half_edge : Nat) (data : List Int) (i : Nat) :
    Except Fault (List Int) := do
  let x := i % half_edge
  let y := i / half_edge
  let temp ← readAt data (x + y * edge)
  let v ← readAt data ((x + half_edge) + y * edge)
  let data ← writeAt data (x + y * edge) v
  let v ← readAt data ((x + half_edge) + (y + half_edge) * edge)
  let data ← writeAt data ((x + half_edge) + y * edge) v
  let v ← readAt data (x + (y + half_edge) * edge)
  let data ← writeAt data ((x + half_edge) + (y + half_edge) * edge) v
  writeAt data (x + (y + half_edge) * edge) temp

/-- Function `rotate_data(data, size)`. -/
def rotate_data (data : List Int) (size : Nat) : Except Fault (List Int) :=
  let edge := Nat.sqrt size
  if edge * edge = size then
    let half_edge := edge / 2
    (List.range (half_edge * half_edge)).foldlM (rotate_body edge half_edge) data
  else .error Fault.assertion

/-- The four array indices used by iteration `i` of the loop of `rotate_data`, in the order
top-left, top-right, bottom-right, bottom-left. -/
def rotate_indices (edge half_edge i : Nat) : List Nat :=
  let x := i % half_edge
  let y := i / half_edge
  [x + y * edge, (x + half_edge) + y * edge,
   (x + half_edge) + (y + half_edge) * edge, x + (y + half_edge) * edge]


/-! ## Command line: `help` and `parse_arguments` -/

/-- The text that `help()` prints. -/
def help_text : String :=
  "USAGE:\n    dmabufshare server\n    dmabufshare client\n"

/-- The C library `strcmp` on argument strings: zero exactly when the strings are equal,
otherwise negative or positive by their order. -/
def strcmp (a b : String) : Int :=
  if a = b then 0 else if a < b then -1 else 1

/-- How a call of `parse_arguments` ends: it returns with `*is_server` set, or the process
ends in `exit(status)`. -/
inductive ParseEnd where
  | returned (is_server : Int)
  | exited (status : Int)
  deriving DecidableEq, Repr

/-- What a call of `parse_arguments` does: the texts printed, and how it ends. -/
structure ParseRun where
  printed : List String
  ending : ParseEnd
  deriving DecidableEq, Repr

/-- Function `parse_arguments(argc, argv, &is_server)`; `argv` is the argument vector of
the process, program name first, and `argc` its length. -/
def parse_arguments (argv : List String) : ParseRun :=
  let argc := argv.length
  if 2 = argc then
    if strcmp (argv.getD 1 "") "server" = 0 then
      ⟨[], ParseEnd.returned 1⟩
    else if strcmp (argv.getD 1 "") "client" = 0 then
      ⟨[], ParseEnd.returned 0⟩
    else if strcmp (argv.getD 1 "") "--help" = 0 then
      ⟨[help_text], ParseEnd.exited 0⟩
    else
      ⟨[help_text], ParseEnd.exited (-1)⟩
  else
    ⟨[help_text], ParseEnd.exited (-1)⟩

/-- The exit status the parent process observes after `exit(status)`: the low eight bits of
`status`. -/
def exit_status (status : Int) : Int := status % 256

/-! ## Consumer: the attribute list for `eglCreateImage` -/

/-- Record `struct texture_storage_metadata_t`: `int fourcc`, `EGLuint64KHR modifiers`,
`EGLint stride`, `EGLint offset`. -/
structure texture_storage_metadata_t where
  fourcc : Int
  modifiers : Nat
  stride : Int
  offset : Int
  deriving DecidableEq, Repr

/-- Constant `#define WINDOW_WIDTH 640` of `main.c`. -/
def WINDOW_WIDTH : Int := 640
/-- Constant `#define WINDOW_HEIGHT 480` of `main.c`; it precedes `#include "window.h"`,
whose own default of 640 is therefore not used. -/
def WINDOW_HEIGHT : Int := 480

/-- The EGL attribute names that `main` writes into the attribute list.  Their numeric
values are given by the EGL headers, which are not part of the repository, so the names are
kept symbolic. -/
inductive EGLName where
  | EGL_WIDTH
  | EGL_HEIGHT
  | EGL_LINUX_DRM_FOURCC_EXT
  | EGL_DMA_BUF_PLANE0_FD_EXT
  | EGL_DMA_BUF_PLANE0_OFFSET_EXT
  | EGL_DMA_BUF_PLANE0_PITCH_EXT
  | EGL_DMA_BUF_PLANE0_MODIFIER_LO_EXT
  | EGL_DMA_BUF_PLANE0_MODIFIER_HI_EXT
  | EGL_NONE
  deriving DecidableEq, Repr

/-- One `EGLAttrib` element of the attribute list: an attribute name or an integer value. -/
inductive EGLAttrib where
  | name (n : EGLName)
  | value (v : Int)
  deriving DecidableEq, Repr

/-- The expression
`(uint32_t)(texture_storage_metadata.modifiers & ((((uint64_t)1) << 33) - 1))`. -/
def modifier_lo (modifiers : Nat) : Nat :=
  (modifiers &&& (((1 <<< 33) % 2 ^ 64) - 1)) % 2 ^ 32

/-- The expression
`(uint32_t)((texture_storage_metadata.modifiers>>32) & ((((uint64_t)1) << 33) - 1))`. -/
def modifier_hi (modifiers : Nat) : Nat :=
  ((modifiers >>> 32) &&& (((1 <<< 33) % 2 ^ 64) - 1)) % 2 ^ 32

/-- The array `attribute_list` that the client branch of `main` builds from the record and
the descriptor it got from `read_fd`. -/
def attribute_list (texture_storage_metadata : texture_storage_metadata_t)
    (texture_dmabuf_fd : Int) : List EGLAttrib :=
  [EGLAttrib.name EGLName.EGL_WIDTH, EGLAttrib.value WINDOW_WIDTH,
   EGLAttrib.name EGLName.EGL_HEIGHT, EGLAttrib.value WINDOW_HEIGHT,
   EGLAttrib.name EGLName.EGL_LINUX_DRM_FOURCC_EXT,
     EGLAttrib.value texture_storage_metadata.fourcc,
   EGLAttrib.name EGLName.EGL_DMA_BUF_PLANE0_FD_EXT, EGLAttrib.value texture_dmabuf_fd,
   EGLAttrib.name EGLName.EGL_DMA_BUF_PLANE0_OFFSET_EXT,
     EGLAttrib.value texture_storage_metadata.offset,
   EGLAttrib.name EGLName.EGL_DMA_BUF_PLANE0_PITCH_EXT,
     EGLAttrib.value texture_storage_metadata.stride,
   EGLAttrib.name EGLName.EGL_DMA_BUF_PLANE0_MODIFIER_LO_EXT,
     EGLAttrib.value (modifier_lo texture_storage_metadata.modifiers),
   EGLAttrib.name EGLName.EGL_DMA_BUF_PLANE0_MODIFIER_HI_EXT,
     EGLAttrib.value (modifier_hi texture_storage_metadata.modifiers),
   EGLAttrib.name EGLName.EGL_NONE]

/-- The value an attribute list gives to the name `key`, read the way EGL reads such a
list: name and value pairs, up to the first `EGL_NONE`. -/
def attrib_value : List EGLAttrib → EGLName → Option Int
  | EGLAttrib.name n :: EGLAttrib.value v :: rest, key =>
    if n = EGLName.EGL_NONE then none
    else if n = key then some v
    else attrib_value rest key
  | _, _ => none

/-! ## Producer: `export_framebuffer` -/

/-- Constant `SERVER_FILE`. -/
def SERVER_FILE : String := "/tmp/test_server"
/-- Constant `CLIENT_FILE`. -/
def CLIENT_FILE : String := "/tmp/test_client"

/-- The answers of the graphics driver and of the socket layer to the calls of
`export_framebuffer`; they are inputs of the model.  The functions `create_socket`,
`connect_socket` and `write_fd` come from `socket.h`, which is not among the sources:
`sock` is what `create_socket` returns, `connect k` is what the call number `k` of
`connect_socket` returns (zero for success). -/
structure Answers where
  fbo : Nat
  texture : Nat
  framebuffer_complete : Bool
  image_created : Bool
  queried : Bool
  fourcc : Int
  num_planes : Int
  modifiers : Nat
  exported : Bool
  texture_dmabuf_fd : Int
  stride : Int
  offset : Int
  sock : Int
  connect : Nat → Int

/-- The calls `export_framebuffer` makes, with the arguments that matter here. -/
inductive Call where
  | eglGetCurrentDisplay
  | eglGetCurrentContext
  | eglGetProcAddress (procname : String)
  | glGenFramebuffers
  | glBindFramebuffer (fbo : Nat)
  | glGenTextures
  | glBindTexture (texture : Nat)
  | glTexImage2D (width height : Int)
  | glTexParameteri
  | glFramebufferTexture2D (texture : Nat)
  | glCheckFramebufferStatus
  | eglCreateImage (texture : Nat)
  | glFlush
  | eglExportDMABUFImageQueryMESA
  | eglExportDMABUFImageMESA
  | create_socket (path : String)
  | connect_socket (sock : Int) (path : String)
  | write_fd (sock : Int) (fd : Int) (data : texture_storage_metadata_t)
  | close (fd : Int)
  deriving DecidableEq, Repr

/-- The `assert`s of `export_framebuffer`, in program order. -/
inductive Assertion where
  | framebuffer_complete
  | image_created
  | queried
  | single_plane
  | exported
  deriving DecidableEq, Repr

/-- How a run of `export_framebuffer` ends: an `assert` aborts the process, the function
returns the framebuffer object, or the run is still inside the loop
`while (connect_socket(sock, CLIENT_FILE) != 0);` when the fuel is used up. -/
inductive ExportEnd where
  | aborted (a : Assertion)
  | returned (fbo : Nat)
  | retrying
  deriving DecidableEq, Repr

/-- The loop `while (connect_socket(sock, CLIENT_FILE) != 0);` from call number `k` on:
the calls made, and whether the loop was left within `fuel` calls. -/
def connect_loop (sock : Int) (connect : Nat → Int) : Nat → Nat → List Call × Bool
  | 0, _ => ([], false)
  | fuel + 1, k =>
    if connect k ≠ 0 then
      let rest := connect_loop sock connect fuel (k + 1)
      (Call.connect_socket sock CLIENT_FILE :: rest.1, rest.2)
    else
      ([Call.connect_socket sock CLIENT_FILE], true)

/-- Function `export_framebuffer()`: the calls it makes, in order, and how it ends.  The
entry points that `eglGetProcAddress` returns are taken to be present. -/
def export_framebuffer (drv : Answers) (fuel : Nat) : List Call × ExportEnd :=
  let t1 := [Call.eglGetCurrentDisplay, Call.eglGetCurrentContext, Call.glGenFramebuffers,
    Call.glBindFramebuffer drv.fbo, Call.glGenTextures, Call.glBindTexture drv.texture,
    Call.glTexImage2D WINDOW_WIDTH WINDOW_HEIGHT, Call.glTexParameteri, Call.glTexParameteri,
    Call.glFramebufferTexture2D drv.texture, Call.glCheckFramebufferStatus]
  if ¬ drv.framebuffer_complete then (t1, ExportEnd.aborted Assertion.framebuffer_complete)
  else
  let t2 := t1 ++ [Call.glBindTexture 0, Call.eglCreateImage drv.texture]
  if ¬ drv.image_created then (t2, ExportEnd.aborted Assertion.image_created)
  else
  let t3 := t2 ++ [Call.glFlush, Call.eglGetProcAddress "eglExportDMABUFImageQueryMESA",
    Call.eglExportDMABUFImageQueryMESA]
  if ¬ drv.queried then (t3, ExportEnd.aborted Assertion.queried)
  else if ¬ (drv.num_planes = 1) then (t3, ExportEnd.aborted Assertion.single_plane)
  else
  let t4 := t3 ++ [Call.eglGetProcAddress "eglExportDMABUFImageMESA",
    Call.eglExportDMABUFImageMESA]
  if ¬ drv.exported then (t4, ExportEnd.aborted Assertion.exported)
  else
  let texture_storage_metadata : texture_storage_metadata_t :=
    ⟨drv.fourcc, drv.modifiers, drv.stride, drv.offset⟩
  let loop := connect_loop drv.sock drv.connect fuel 0
  let t5 := t4 ++ [Call.create_socket SERVER_FILE] ++ loop.1
  if ¬ loop.2 then (t5, ExportEnd.retrying)
  else
  (t5 ++ [Call.write_fd drv.sock drv.texture_dmabuf_fd texture_storage_metadata,
      Call.close drv.sock, Call.close drv.texture_dmabuf_fd, Call.glBindFramebuffer 0],
    ExportEnd.returned drv.fbo)

/-- The calls of a run that hand something to the peer or prepare doing so: the export of
the handle and every socket call. -/
def Call.transfers : Call → Bool
  | Call.eglExportDMABUFImageMESA => true
  | Call.create_socket _ => true
  | Call.connect_socket _ _ => true
  | Call.write_fd _ _ _ => true
  | _ => false

/-- The `write_fd` calls. -/
def Call.isWriteFd : Call → Bool
  | Call.write_fd _ _ _ => true
  | _ => false

/-! ## Bookkeeping functions used to state what the loops do -/

/-- Coordinate `c` of the `2h × 2h` block folded into the top-left quadrant. -/
def foldHalf (h c : Nat) : Nat := if c < h then c else c - h

/-- The cell whose original content lies at cell `(c, r)` after the first `n` iterations. -/
def srcCell (h n c r : Nat) : Nat × Nat :=
  if c < 2 * h ∧ r < 2 * h ∧ foldHalf h c + foldHalf h r * h < n then
    if r < h then (if c < h then (c + h, r) else (c, r + h))
    else (if c < h then (c, r - h) else (c - h, r))
  else (c, r)

/-- The cell whose original content lies at cell `(c, r)` after `rotate_data`: inside the
`2h × 2h` block the content of each quadrant comes from the next quadrant clockwise
(top-left from top-right, top-right from bottom-right, bottom-right from bottom-left,
bottom-left from top-left); outside the block nothing moves. -/
def rotSrc (h c r : Nat) : Nat × Nat :=
  if c < 2 * h ∧ r < 2 * h then
    if r < h then (if c < h then (c + h, r) else (c, r + h))
    else (if c < h then (c, r - h) else (c - h, r))
  else (c, r)

/-- The colour that iteration `i` of the loop of `create_data` stores. -/
def quadrant_colour (edge half_edge i : Nat) : Int :=
  if i % edge < half_edge then
    if i / edge < half_edge then red else blue
  else
    if i / edge < half_edge then green else white

/-- An `edge × edge` array whose four quadrants are the flat colours `tl` (top-left),
`tr` (top-right), `bl` (bottom-left) and `br` (bottom-right). -/
def HasQuadrants (edge : Nat) (data : List Int) (tl tr bl br : Int) : Prop :=
  data.length = edge * edge ∧
  ∀ x y, x < edge / 2 → y < edge / 2 →
    data[x + y * edge]? = some tl ∧
    data[(x + edge / 2) + y * edge]? = some tr ∧
    data[x + (y + edge / 2) * edge]? = some bl ∧
    data[(x + edge / 2) + (y + edge / 2) * edge]? = some br

/-- The clockwise move of quadrant contents (top-left to top-right to bottom-right to
bottom-left to top-left), from the array `old` to the array `new`. -/
def MovedClockwise (edge : Nat) (old new : List Int) : Prop :=
  ∀ x y, x < edge / 2 → y < edge / 2 →
    new[(x + edge / 2) + y * edge]? = old[x + y * edge]? ∧
    new[(x + edge / 2) + (y + edge / 2) * edge]? = old[(x + edge / 2) + y * edge]? ∧
    new[x + (y + edge / 2) * edge]? = old[(x + edge / 2) + (y + edge / 2) * edge]? ∧
    new[x + y * edge]? = old[x + (y + edge / 2) * edge]?

/-- The counter-clockwise move of quadrant contents (top-left to bottom-left to
bottom-right to top-right to top-left), from the array `old` to the array `new`. -/
def MovedCounterClockwise (edge : Nat) (old new : List Int) : Prop :=
  ∀ x y, x < edge / 2 → y < edge / 2 →
    new[x + y * edge]? = old[(x + edge / 2) + y * edge]? ∧
    new[(x + edge / 2) + y * edge]? = old[(x + edge / 2) + (y + edge / 2) * edge]? ∧
    new[(x + edge / 2) + (y + edge / 2) * edge]? = old[x + (y + edge / 2) * edge]? ∧
    new[x + (y + edge / 2) * edge]? = old[x + y * edge]?

/-- The four moves of one iteration of `rotate_data`, on the four indices
`[top-left, top-right, bottom-right, bottom-left]`. -/
def rotate_on (data : List Int) : List Nat → Except Fault (List Int)
  | [tl, tr, br, bl] => do
    let temp ← readAt data tl
    let v ← readAt data tr
    let data ← writeAt data tl v
    let v ← readAt data br
    let data ← writeAt data tr v
    let v ← readAt data bl
    let data ← writeAt data br v
    writeAt data bl temp
  | _ => .error Fault.out_of_bounds

/-- Four successive calls `rotate_data(data, size)`. -/
def rotate_four (data : List Int) (size : Nat) : Except Fault (List Int) := do
  let d1 ← rotate_data data size
  let d2 ← rotate_data d1 size
  let d3 ← rotate_data d2 size
  rotate_data d3 size

/-! ## Index arithmetic -/

theorem idx_lt {e c r : Nat} (hc : c < e) (hr : r < e) : c + r * e < e * e := by
  have h1 : (r + 1) * e ≤ e * e := Nat.mul_le_mul_right e hr
  have h2 : (r + 1) * e = r * e + e := by ring
  omega

theorem idx_inj {e c r c2 r2 : Nat} (hc : c < e) (hc2 : c2 < e)
    (h : c + r * e = c2 + r2 * e) : c = c2 ∧ r = r2 := by
  have he : 0 < e := by omega
  have hm : (c + r * e) % e = (c2 + r2 * e) % e := by rw [h]
  have hd : (c + r * e) / e = (c2 + r2 * e) / e := by rw [h]
  rw [Nat.add_mul_mod_self_right, Nat.add_mul_mod_self_right, Nat.mod_eq_of_lt hc,
    Nat.mod_eq_of_lt hc2] at hm
  rw [Nat.add_mul_div_right _ _ he, Nat.add_mul_div_right _ _ he, Nat.div_eq_of_lt hc,
    Nat.div_eq_of_lt hc2] at hd
  omega

theorem idx_ne {e c r c2 r2 : Nat} (hc : c < e) (hc2 : c2 < e)
    (h : c ≠ c2 ∨ r ≠ r2) : c + r * e ≠ c2 + r2 * e := by
  intro heq
  have := idx_inj hc hc2 heq
  omega

theorem iter_coords {h i : Nat} (hi : i < h * h) : i % h < h ∧ i / h < h := by
  have hpos : 0 < h := by
    rcases Nat.eq_zero_or_pos h with h0 | h0
    · subst h0; simp at hi
    · exact h0
  exact ⟨Nat.mod_lt _ hpos, (Nat.div_lt_iff_lt_mul hpos).2 hi⟩

/-! ## One iteration of `rotate_data` -/

/-- Effect of the four moves of one iteration at cell `(x, y)` of the top-left quadrant. -/
theorem rotate_cell (e h x y : Nat) (data : List Int) (hlen : data.length = e * e)
    (hh : 2 * h ≤ e) (hx : x < h) (hy : y < h) :
    ∃ data2, (do
        let temp ← readAt data (x + y * e)
        let v ← readAt data ((x + h) + y * e)
        let data ← writeAt data (x + y * e) v
        let v ← readAt data ((x + h) + (y + h) * e)
        let data ← writeAt data ((x + h) + y * e) v
        let v ← readAt data (x + (y + h) * e)
        let data ← writeAt data ((x + h) + (y + h) * e) v
        writeAt data (x + (y + h) * e) temp) = Except.ok data2 ∧
      data2.length = data.length ∧
      ∀ j, data2[j]? =
        if j = x + y * e then data[(x + h) + y * e]?
        else if j = (x + h) + y * e then data[(x + h) + (y + h) * e]?
        else if j = (x + h) + (y + h) * e then data[x + (y + h) * e]?
        else if j = x + (y + h) * e then data[x + y * e]?
        else data[j]? := by
  have b1 : x + y * e < data.length := hlen ▸ idx_lt (by omega) (by omega)
  have b2 : (x + h) + y * e < data.length := hlen ▸ idx_lt (by omega) (by omega)
  have b3 : (x + h) + (y + h) * e < data.length := hlen ▸ idx_lt (by omega) (by omega)
  have b4 : x + (y + h) * e < data.length := hlen ▸ idx_lt (by omega) (by omega)
  have n12 : x + y * e ≠ (x + h) + y * e := idx_ne (by omega) (by omega) (by omega)
  have n13 : x + y * e ≠ (x + h) + (y + h) * e := idx_ne (by omega) (by omega) (by omega)
  have n14 : x + y * e ≠ x + (y + h) * e := idx_ne (by omega) (by omega) (by omega)
  have n23 : (x + h) + y * e ≠ (x + h) + (y + h) * e :=
    idx_ne (by omega) (by omega) (by omega)
  have n24 : (x + h) + y * e ≠ x + (y + h) * e := idx_ne (by omega) (by omega) (by omega)
  have n34 : (x + h) + (y + h) * e ≠ x + (y + h) * e :=
    idx_ne (by omega) (by omega) (by omega)
  generalize x + y * e = i1 at *
  generalize (x + h) + y * e = i2 at *
  generalize (x + h) + (y + h) * e = i3 at *
  generalize x + (y + h) * e = i4 at *
  refine ⟨(((data.set i1 (data[i2])).set i2 (data[i3])).set i3 (data[i4])).set i4 (data[i1]),
    ?_, by simp, ?_⟩
  · simp [readAt, writeAt, List.getElem?_eq_getElem, b1, b2, b3, b4, List.getElem_set,
      n12, n13, n14, n23, n24, n34, Ne.symm n12, Ne.symm n13, Ne.symm n14, Ne.symm n23,
      Ne.symm n24, Ne.symm n34, bind, Except.bind]
  · intro j
    simp only [List.getElem?_set, List.length_set, b1, b2, b3, b4, if_true,
      List.getElem?_eq_getElem]
    by_cases h1 : j = i1
    · subst h1; simp [n12, n13, n14, Ne.symm n12, Ne.symm n13, Ne.symm n14]
    · by_cases h2 : j = i2
      · subst h2; simp [n23, n24, Ne.symm n12, Ne.symm n23, Ne.symm n24, h1]
      · by_cases h3 : j = i3
        · subst h3; simp [n34, Ne.symm n34, h1, h2]
        · by_cases h4 : j = i4
          · subst h4; simp [h1, h2, h3]
          · simp [h1, h2, h3, h4, Ne.symm h1, Ne.symm h2, Ne.symm h3, Ne.symm h4,
              eq_comm]

/-! ## The loop of `rotate_data` -/

theorem foldHalf_lt {h c : Nat} (hc : c < h) : foldHalf h c = c := by
  simp [foldHalf, hc]

theorem foldHalf_add (h x : Nat) : foldHalf h (x + h) = x := by
  simp [foldHalf]

theorem foldHalf_cases {h c : Nat} (hc : c < 2 * h) :
    foldHalf h c < h ∧ (c = foldHalf h c ∨ c = foldHalf h c + h) := by
  unfold foldHalf
  split <;> omega

theorem rotate_body_eq (e h : Nat) (d : List Int) (i : Nat) :
    rotate_body e h d i = (do
        let temp ← readAt d (i % h + i / h * e)
        let v ← readAt d ((i % h + h) + i / h * e)
        let data ← writeAt d (i % h + i / h * e) v
        let v ← readAt data ((i % h + h) + (i / h + h) * e)
        let data ← writeAt data ((i % h + h) + i / h * e) v
        let v ← readAt data (i % h + (i / h + h) * e)
        let data ← writeAt data ((i % h + h) + (i / h + h) * e) v
        writeAt data (i % h + (i / h + h) * e) temp) := rfl

/-- One iteration at cell `(x, y)` extends the loop invariant from `n` to `n + 1`. -/
theorem rotate_step_inv (e h x y n : Nat) (data d d2 : List Int) (hh : 2 * h ≤ e)
    (hx : x < h) (hy : y < h) (hn : x + y * h = n)
    (hinv : ∀ c r, c < e → r < e →
      d[c + r * e]? = data[(srcCell h n c r).1 + (srcCell h n c r).2 * e]?)
    (h3 : ∀ j, d2[j]? =
        if j = x + y * e then d[(x + h) + y * e]?
        else if j = (x + h) + y * e then d[(x + h) + (y + h) * e]?
        else if j = (x + h) + (y + h) * e then d[x + (y + h) * e]?
        else if j = x + (y + h) * e then d[x + y * e]?
        else d[j]?) :
    ∀ c r, c < e → r < e →
      d2[c + r * e]? = data[(srcCell h (n + 1) c r).1 + (srcCell h (n + 1) c r).2 * e]? := by
  intro c r hc hr
  rw [h3]
  have key : foldHalf h c + foldHalf h r * h = n →
      c < 2 * h → r < 2 * h → (c = x ∨ c = x + h) ∧ (r = y ∨ r = y + h) := by
    intro hk hc2 hr2
    obtain ⟨f1, f2⟩ := foldHalf_cases hc2
    obtain ⟨g1, g2⟩ := foldHalf_cases hr2
    obtain ⟨k1, k2⟩ := idx_inj f1 hx (hk.trans hn.symm)
    omega
  have hx2 : x < 2 * h := by omega
  have hy2 : y < 2 * h := by omega
  have hxh : x + h < 2 * h := by omega
  have hyh : y + h < 2 * h := by omega
  have nxh : ¬ (x + h < h) := by omega
  have nyh : ¬ (y + h < h) := by omega
  by_cases q1 : c = x ∧ r = y
  · obtain ⟨rfl, rfl⟩ := q1
    rw [if_pos rfl, hinv (c + h) r (by omega) hr]
    simp [srcCell, foldHalf_lt hx, foldHalf_lt hy, foldHalf_add, hn, hx, hy, hx2, hy2, hxh]
  · have e1 : c + r * e ≠ x + y * e := by
      intro hEq
      exact q1 (idx_inj hc (by omega) hEq)
    rw [if_neg e1]
    by_cases q2 : c = x + h ∧ r = y
    · obtain ⟨rfl, rfl⟩ := q2
      rw [if_pos rfl, hinv (x + h) (r + h) (by omega) (by omega)]
      simp [srcCell, foldHalf_lt hx, foldHalf_lt hy, foldHalf_add, hn, hx, hy, hx2, hy2, hxh,
        hyh, nxh, nyh]
    · have e2 : c + r * e ≠ (x + h) + y * e := by
        intro hEq
        exact q2 (idx_inj hc (by omega) hEq)
      rw [if_neg e2]
      by_cases q3 : c = x + h ∧ r = y + h
      · obtain ⟨rfl, rfl⟩ := q3
        rw [if_pos rfl, hinv x (y + h) (by omega) (by omega)]
        simp [srcCell, foldHalf_lt hx, foldHalf_lt hy, foldHalf_add, hn, hx, hy, hx2, hy2,
          hxh, hyh, nxh, nyh]
      · have e3 : c + r * e ≠ (x + h) + (y + h) * e := by
          intro hEq
          exact q3 (idx_inj hc (by omega) hEq)
        rw [if_neg e3]
        by_cases q4 : c = x ∧ r = y + h
        · obtain ⟨rfl, rfl⟩ := q4
          rw [if_pos rfl, hinv c y (by omega) (by omega)]
          simp [srcCell, foldHalf_lt hx, foldHalf_lt hy, foldHalf_add, hn, hx, hy, hx2, hy2,
            hxh, hyh, nxh, nyh]
        · have e4 : c + r * e ≠ x + (y + h) * e := by
            intro hEq
            exact q4 (idx_inj hc (by omega) hEq)
          rw [if_neg e4, hinv c r hc hr]
          have hsame : srcCell h (n + 1) c r = srcCell h n c r := by
            unfold srcCell
            by_cases hb : c < 2 * h ∧ r < 2 * h
            · have hne : foldHalf h c + foldHalf h r * h ≠ n := by
                intro hk
                have := key hk hb.1 hb.2
                omega
              have hiff : (foldHalf h c + foldHalf h r * h < n + 1) ↔
                  (foldHalf h c + foldHalf h r * h < n) := by omega
              simp only [hiff]
            · have f1 : ¬ (c < 2 * h ∧ r < 2 * h ∧ foldHalf h c + foldHalf h r * h < n + 1) :=
                fun hq => hb ⟨hq.1, hq.2.1⟩
              have f2 : ¬ (c < 2 * h ∧ r < 2 * h ∧ foldHalf h c + foldHalf h r * h < n) :=
                fun hq => hb ⟨hq.1, hq.2.1⟩
              rw [if_neg f1, if_neg f2]
          rw [hsame]

theorem rotate_loop_inv (e h : Nat) (data : List Int) (hlen : data.length = e * e)
    (hh : 2 * h ≤ e) :
    ∀ n, n ≤ h * h → ∃ d, (List.range n).foldlM (rotate_body e h) data = Except.ok d ∧
      d.length = data.length ∧
      ∀ c r, c < e → r < e →
        d[c + r * e]? = data[(srcCell h n c r).1 + (srcCell h n c r).2 * e]? := by
  intro n
  induction n with
  | zero =>
    intro _
    refine ⟨data, rfl, rfl, ?_⟩
    intro c r _ _
    simp [srcCell]
  | succ n ih =>
    intro hn
    obtain ⟨d, hd, hdl, hinv⟩ := ih (by omega)
    obtain ⟨hx, hy⟩ := iter_coords (show n < h * h by omega)
    have hn_eq : n % h + n / h * h = n := by
      have := Nat.mod_add_div n h
      rw [Nat.mul_comm] at this
      exact this
    obtain ⟨d2, h1, h2, h3⟩ := rotate_cell e h (n % h) (n / h) d (by omega) hh hx hy
    refine ⟨d2, ?_, by omega, rotate_step_inv e h _ _ n data d d2 hh hx hy hn_eq hinv h3⟩
    rw [List.range_succ, List.foldlM_append, hd]
    simp only [List.foldlM, bind, Except.bind, pure, Except.pure]
    rw [rotate_body_eq, h1]

/-! ## The whole of `rotate_data` -/

theorem srcCell_full (h c r : Nat) : srcCell h (h * h) c r = rotSrc h c r := by
  unfold srcCell rotSrc
  by_cases hb : c < 2 * h ∧ r < 2 * h
  · obtain ⟨f1, _⟩ := foldHalf_cases hb.1
    obtain ⟨g1, _⟩ := foldHalf_cases hb.2
    have := idx_lt f1 g1
    rw [if_pos ⟨hb.1, hb.2, this⟩, if_pos hb]
  · have f1 : ¬ (c < 2 * h ∧ r < 2 * h ∧ foldHalf h c + foldHalf h r * h < h * h) :=
      fun hq => hb ⟨hq.1, hq.2.1⟩
    rw [if_neg f1, if_neg hb]

theorem rotSrc_lt {e h c r : Nat} (hh : 2 * h ≤ e) (hc : c < e) (hr : r < e) :
    (rotSrc h c r).1 < e ∧ (rotSrc h c r).2 < e := by
  unfold rotSrc
  split_ifs <;> simp <;> omega

theorem rotSrc_tl {h x y : Nat} (hx : x < h) (hy : y < h) :
    rotSrc h x y = (x + h, y) := by
  have h1 : x < 2 * h ∧ y < 2 * h := by omega
  simp [rotSrc, h1, hx, hy]

theorem rotSrc_tr {h x y : Nat} (hx : x < h) (hy : y < h) :
    rotSrc h (x + h) y = (x + h, y + h) := by
  have h1 : x + h < 2 * h ∧ y < 2 * h := by omega
  simp [rotSrc, h1, hy]

theorem rotSrc_br {h x y : Nat} (hx : x < h) (hy : y < h) :
    rotSrc h (x + h) (y + h) = (x, y + h) := by
  have h1 : x + h < 2 * h ∧ y + h < 2 * h := by omega
  simp [rotSrc, h1]

theorem rotSrc_bl {h x y : Nat} (hx : x < h) (hy : y < h) :
    rotSrc h x (y + h) = (x, y) := by
  have h1 : x < 2 * h ∧ y + h < 2 * h := by omega
  simp [rotSrc, h1, hx]

theorem rotSrc_outside {h c r : Nat} (hb : ¬ (c < 2 * h ∧ r < 2 * h)) :
    rotSrc h c r = (c, r) := by
  simp only [rotSrc, if_neg hb]

/-- Four steps of `rotSrc` lead back to the cell they start from. -/
theorem rotSrc_four (h c r : Nat) :
    rotSrc h (rotSrc h (rotSrc h (rotSrc h c r).1 (rotSrc h c r).2).1
        (rotSrc h (rotSrc h c r).1 (rotSrc h c r).2).2).1
      (rotSrc h (rotSrc h (rotSrc h c r).1 (rotSrc h c r).2).1
        (rotSrc h (rotSrc h c r).1 (rotSrc h c r).2).2).2 = (c, r) := by
  by_cases hb : c < 2 * h ∧ r < 2 * h
  · by_cases hc : c < h
    · by_cases hr : r < h
      · simp only [rotSrc_tl hc hr, rotSrc_tr hc hr, rotSrc_br hc hr, rotSrc_bl hc hr]
      · obtain ⟨y, rfl⟩ : ∃ y, r = y + h := ⟨r - h, by omega⟩
        have hy : y < h := by omega
        simp only [rotSrc_tl hc hy, rotSrc_tr hc hy, rotSrc_br hc hy, rotSrc_bl hc hy]
    · obtain ⟨x, rfl⟩ : ∃ x, c = x + h := ⟨c - h, by omega⟩
      have hx : x < h := by omega
      by_cases hr : r < h
      · simp only [rotSrc_tl hx hr, rotSrc_tr hx hr, rotSrc_br hx hr, rotSrc_bl hx hr]
      · obtain ⟨y, rfl⟩ : ∃ y, r = y + h := ⟨r - h, by omega⟩
        have hy : y < h := by omega
        simp only [rotSrc_tl hx hy, rotSrc_tr hx hy, rotSrc_br hx hy, rotSrc_bl hx hy]
  · simp only [rotSrc_outside hb]

/-- Function `rotate_data` on an `e × e` array: it returns, never faults, keeps the length,
and its result at every cell is the original content of the cell `rotSrc` names. -/
theorem rotate_data_cells (e : Nat) (data : List Int) (hlen : data.length = e * e) :
    ∃ d, rotate_data data (e * e) = Except.ok d ∧ d.length = data.length ∧
      ∀ c r, c < e → r < e →
        d[c + r * e]? = data[(rotSrc (e / 2) c r).1 + (rotSrc (e / 2) c r).2 * e]? := by
  obtain ⟨d, h1, h2, h3⟩ :=
    rotate_loop_inv e (e / 2) data hlen (by omega) (e / 2 * (e / 2)) (le_refl _)
  refine ⟨d, ?_, h2, ?_⟩
  · unfold rotate_data
    simp only [Nat.sqrt_eq, if_true]
    exact h1
  · intro c r hc hr
    rw [h3 c r hc hr, srcCell_full]

/-- Every index below `e * e` is the index of a cell `(c, r)` with `c, r < e`. -/
theorem cell_of_index {e j : Nat} (hj : j < e * e) :
    j % e < e ∧ j / e < e ∧ j % e + j / e * e = j := by
  have he : 0 < e := by
    rcases Nat.eq_zero_or_pos e with h0 | h0
    · subst h0; simp at hj
    · exact h0
  refine ⟨Nat.mod_lt _ he, (Nat.div_lt_iff_lt_mul he).2 hj, ?_⟩
  have := Nat.mod_add_div j e
  rw [Nat.mul_comm] at this
  exact this

/-- Two arrays of `e * e` cells that agree on every cell are equal. -/
theorem ext_cells {e : Nat} {a b : List Int} (ha : a.length = e * e) (hb : b.length = e * e)
    (h : ∀ c r, c < e → r < e → a[c + r * e]? = b[c + r * e]?) : a = b := by
  apply List.ext_getElem?
  intro j
  by_cases hj : j < e * e
  · obtain ⟨h1, h2, h3⟩ := cell_of_index hj
    rw [← h3]
    exact h _ _ h1 h2
  · rw [List.getElem?_eq_none (by omega), List.getElem?_eq_none (by omega)]

/-- Four successive calls of `rotate_data` on an `e × e` array give back the array. -/
theorem rotate_four_id (e : Nat) (data : List Int) (hlen : data.length = e * e) :
    rotate_four data (e * e) = Except.ok data := by
  obtain ⟨d1, r1, l1, c1⟩ := rotate_data_cells e data hlen
  obtain ⟨d2, r2, l2, c2⟩ := rotate_data_cells e d1 (by omega)
  obtain ⟨d3, r3, l3, c3⟩ := rotate_data_cells e d2 (by omega)
  obtain ⟨d4, r4, l4, c4⟩ := rotate_data_cells e d3 (by omega)
  have hh : 2 * (e / 2) ≤ e := by omega
  have : d4 = data := by
    apply ext_cells (e := e) (by omega) hlen
    intro c r hc hr
    obtain ⟨a1, a2⟩ := rotSrc_lt hh hc hr
    obtain ⟨b1, b2⟩ := rotSrc_lt hh a1 a2
    obtain ⟨g1, g2⟩ := rotSrc_lt hh b1 b2
    rw [c4 c r hc hr, c3 _ _ a1 a2, c2 _ _ b1 b2, c1 _ _ g1 g2, rotSrc_four]
  subst this
  simp only [rotate_four, r1, r2, r3, r4, bind, Except.bind]

/-! ## The pattern of `create_data` -/

theorem create_body_eq (e h : Nat) (d : List Int) (i : Nat) :
    create_body e h d i = writeAt d i (quadrant_colour e h i) := by
  simp only [create_body, quadrant_colour]
  split_ifs <;> rfl

theorem create_loop_inv (e h : Nat) (fresh : List Int) :
    ∀ n, n ≤ fresh.length →
      ∃ d, (List.range n).foldlM (create_body e h) fresh = Except.ok d ∧
        d.length = fresh.length ∧ ∀ j, j < n → d[j]? = some (quadrant_colour e h j) := by
  intro n
  induction n with
  | zero =>
    intro _
    exact ⟨fresh, rfl, rfl, fun j hj => absurd hj (Nat.not_lt_zero j)⟩
  | succ n ih =>
    intro hn
    obtain ⟨d, hd, hdl, hinv⟩ := ih (by omega)
    refine ⟨d.set n (quadrant_colour e h n), ?_, by simp [hdl], ?_⟩
    · rw [List.range_succ, List.foldlM_append, hd]
      simp only [List.foldlM, bind, Except.bind, pure, Except.pure]
      rw [create_body_eq]
      have hlt : n < d.length := by omega
      simp [writeAt, hlt]
    · intro j hj
      by_cases hjn : j = n
      · subst hjn
        rw [List.getElem?_set_self (by omega)]
      · rw [List.getElem?_set_ne (Ne.symm hjn)]
        exact hinv j (by omega)

/-- Function `create_data` on a perfect square `e * e`: it returns, never faults, and cell
`(c, r)` of the result holds the colour of its quadrant. -/
theorem create_data_cells (e : Nat) (fresh : List Int) (hlen : fresh.length = e * e) :
    ∃ d, create_data fresh (e * e) = Except.ok d ∧ d.length = e * e ∧
      ∀ c r, c < e → r < e →
        d[c + r * e]? = some (if c < e / 2 then (if r < e / 2 then red else blue)
          else (if r < e / 2 then green else white)) := by
  obtain ⟨d, h1, h2, h3⟩ := create_loop_inv e (e / 2) fresh (e * e) (by omega)
  refine ⟨d, ?_, by omega, ?_⟩
  · unfold create_data
    simp only [Nat.sqrt_eq, if_true]
    exact h1
  · intro c r hc hr
    rw [h3 _ (idx_lt hc hr)]
    unfold quadrant_colour
    rw [Nat.add_mul_mod_self_right, Nat.mod_eq_of_lt hc,
      Nat.add_mul_div_right _ _ (by omega : 0 < e), Nat.div_eq_of_lt hc, Nat.zero_add]

/-! ## Quadrants -/

theorem create_data_quadrants (e : Nat) (fresh : List Int) (hlen : fresh.length = e * e) :
    ∃ d, create_data fresh (e * e) = Except.ok d ∧ HasQuadrants e d red green blue white := by
  obtain ⟨d, h1, h2, h3⟩ := create_data_cells e fresh hlen
  refine ⟨d, h1, h2, ?_⟩
  intro x y hx hy
  have a1 : ¬ (x + e / 2 < e / 2) := by omega
  have a2 : ¬ (y + e / 2 < e / 2) := by omega
  refine ⟨?_, ?_, ?_, ?_⟩
  · rw [h3 x y (by omega) (by omega), if_pos hx, if_pos hy]
  · rw [h3 (x + e / 2) y (by omega) (by omega), if_neg a1, if_pos hy]
  · rw [h3 x (y + e / 2) (by omega) (by omega), if_pos hx, if_neg a2]
  · rw [h3 (x + e / 2) (y + e / 2) (by omega) (by omega), if_neg a1, if_neg a2]

theorem rotate_data_moves (e : Nat) (data : List Int) (hlen : data.length = e * e) :
    ∃ out, rotate_data data (e * e) = Except.ok out ∧ out.length = e * e ∧
      MovedCounterClockwise e data out := by
  obtain ⟨d, h1, h2, h3⟩ := rotate_data_cells e data hlen
  refine ⟨d, h1, by omega, ?_⟩
  intro x y hx hy
  refine ⟨?_, ?_, ?_, ?_⟩
  · rw [h3 x y (by omega) (by omega), rotSrc_tl hx hy]
  · rw [h3 (x + e / 2) y (by omega) (by omega), rotSrc_tr hx hy]
  · rw [h3 (x + e / 2) (y + e / 2) (by omega) (by omega), rotSrc_br hx hy]
  · rw [h3 x (y + e / 2) (by omega) (by omega), rotSrc_bl hx hy]

theorem moved_quadrants {e : Nat} {data out : List Int} {tl tr bl br : Int}
    (hq : HasQuadrants e data tl tr bl br) (hlen : out.length = e * e)
    (hm : MovedCounterClockwise e data out) : HasQuadrants e out tr br tl bl := by
  refine ⟨hlen, ?_⟩
  intro x y hx hy
  obtain ⟨m1, m2, m3, m4⟩ := hm x y hx hy
  obtain ⟨q1, q2, q3, q4⟩ := hq.2 x y hx hy
  exact ⟨m1.trans q2, m2.trans q4, m4.trans q1, m3.trans q3⟩

theorem rotate_data_outside (e : Nat) (data : List Int) (hlen : data.length = e * e) :
    ∃ out, rotate_data data (e * e) = Except.ok out ∧ out.length = e * e ∧
      ∀ c r, c < e → r < e → (2 * (e / 2) ≤ c ∨ 2 * (e / 2) ≤ r) →
        out[c + r * e]? = data[c + r * e]? := by
  obtain ⟨d, h1, h2, h3⟩ := rotate_data_cells e data hlen
  refine ⟨d, h1, by omega, ?_⟩
  intro c r hc hr hout
  rw [h3 c r hc hr, rotSrc_outside (by omega)]

/-! ## The indices of one iteration -/

theorem rotate_body_on (e h : Nat) (d : List Int) (i : Nat) :
    rotate_body e h d i = rotate_on d (rotate_indices e h i) := rfl

theorem rotate_indices_lt {e h i : Nat} (hh : 2 * h ≤ e) (hi : i < h * h) :
    ∀ j ∈ rotate_indices e h i, j < e * e := by
  obtain ⟨hx, hy⟩ := iter_coords hi
  intro j hj
  simp only [rotate_indices, List.mem_cons, List.mem_singleton, List.not_mem_nil,
    or_false] at hj
  rcases hj with rfl | rfl | rfl | rfl <;> exact idx_lt (by omega) (by omega)

theorem rotate_indices_nodup {e h i : Nat} (hh : 2 * h ≤ e) (hi : i < h * h) :
    (rotate_indices e h i).Nodup := by
  obtain ⟨hx, hy⟩ := iter_coords hi
  have n12 : i % h + i / h * e ≠ (i % h + h) + i / h * e :=
    idx_ne (by omega) (by omega) (by omega)
  have n13 : i % h + i / h * e ≠ (i % h + h) + (i / h + h) * e :=
    idx_ne (by omega) (by omega) (by omega)
  have n14 : i % h + i / h * e ≠ i % h + (i / h + h) * e :=
    idx_ne (by omega) (by omega) (by omega)
  have n23 : (i % h + h) + i / h * e ≠ (i % h + h) + (i / h + h) * e :=
    idx_ne (by omega) (by omega) (by omega)
  have n24 : (i % h + h) + i / h * e ≠ i % h + (i / h + h) * e :=
    idx_ne (by omega) (by omega) (by omega)
  have n34 : (i % h + h) + (i / h + h) * e ≠ i % h + (i / h + h) * e :=
    idx_ne (by omega) (by omega) (by omega)
  simp only [rotate_indices, List.nodup_cons, List.mem_cons, List.mem_singleton,
    List.not_mem_nil, or_false, not_or, List.nodup_nil, not_false_eq_true, and_true]
  exact ⟨⟨n12, n13, n14⟩, ⟨n23, n24⟩, n34⟩

theorem iter_coords_ne {h i k : Nat} (hik : i ≠ k) : i % h ≠ k % h ∨ i / h ≠ k / h := by
  by_contra hc
  have h1 : i % h = k % h := by omega
  have h2 : i / h = k / h := by omega
  have e1 := Nat.mod_add_div i h
  have e2 := Nat.mod_add_div k h
  rw [h1, h2] at e1
  exact hik (e1.symm.trans e2)

theorem cells_disjoint {e h x y x2 y2 : Nat} (hh : 2 * h ≤ e) (hx : x < h) (hy : y < h)
    (hx2 : x2 < h) (hy2 : y2 < h) (hne : x ≠ x2 ∨ y ≠ y2) :
    ∀ j, j ∈ [x + y * e, (x + h) + y * e, (x + h) + (y + h) * e, x + (y + h) * e] →
      j ∈ [x2 + y2 * e, (x2 + h) + y2 * e, (x2 + h) + (y2 + h) * e, x2 + (y2 + h) * e] →
      False := by
  intro j h1 h2
  simp only [List.mem_cons, List.mem_singleton, List.not_mem_nil, or_false] at h1 h2
  rcases h1 with h1 | h1 | h1 | h1 <;> rcases h2 with h2 | h2 | h2 | h2 <;>
    · have h3 := idx_inj (by omega) (by omega) (h1.symm.trans h2)
      omega

theorem rotate_indices_disjoint {e h i k : Nat} (hh : 2 * h ≤ e) (hi : i < h * h)
    (hk : k < h * h) (hik : i ≠ k) :
    (rotate_indices e h i).Disjoint (rotate_indices e h k) := by
  obtain ⟨hx, hy⟩ := iter_coords hi
  obtain ⟨hx2, hy2⟩ := iter_coords hk
  intro j h1 h2
  exact cells_disjoint hh hx hy hx2 hy2 (iter_coords_ne hik) j h1 h2

/-! ## Command line -/

theorem strcmp_eq_zero (a b : String) : strcmp a b = 0 ↔ a = b := by
  unfold strcmp
  split_ifs with h1 h2
  · simp [h1]
  · simp [h1]
  · simp [h1]

theorem parse_arguments_two (prog arg : String) :
    parse_arguments [prog, arg] =
      if arg = "server" then ⟨[], ParseEnd.returned 1⟩
      else if arg = "client" then ⟨[], ParseEnd.returned 0⟩
      else if arg = "--help" then ⟨[help_text], ParseEnd.exited 0⟩
      else ⟨[help_text], ParseEnd.exited (-1)⟩ := by
  simp [parse_arguments, strcmp_eq_zero]

theorem parse_arguments_other (argv : List String) (h : argv.length ≠ 2) :
    parse_arguments argv = ⟨[help_text], ParseEnd.exited (-1)⟩ := by
  have h2 : ¬ (2 = argv.length) := fun hq => h hq.symm
  simp [parse_arguments, h2]

theorem length_two {argv : List String} (h : argv.length = 2) :
    ∃ prog arg, argv = [prog, arg] := by
  match argv, h with
  | [prog, arg], _ => exact ⟨prog, arg, rfl⟩

/-! ## Modifier halves -/

theorem modifier_lo_eq (m : Nat) : modifier_lo m = m % 2 ^ 32 := by
  unfold modifier_lo
  have h : ((1 <<< 33) % 2 ^ 64 - 1 : Nat) = 2 ^ 33 - 1 := by decide
  rw [h, Nat.and_pow_two_sub_one_eq_mod]
  omega

theorem modifier_hi_eq (m : Nat) (hm : m < 2 ^ 64) : modifier_hi m = m / 2 ^ 32 := by
  unfold modifier_hi
  have h : ((1 <<< 33) % 2 ^ 64 - 1 : Nat) = 2 ^ 33 - 1 := by decide
  rw [h, Nat.and_pow_two_sub_one_eq_mod, Nat.shiftRight_eq_div_pow]
  omega

/-! ## The connection loop and `export_framebuffer` -/

theorem connect_loop_calls (sock : Int) (connect : Nat → Int) :
    ∀ fuel k, ∀ c ∈ (connect_loop sock connect fuel k).1,
      c = Call.connect_socket sock CLIENT_FILE := by
  intro fuel
  induction fuel with
  | zero => intro k c hc; simp [connect_loop] at hc
  | succ fuel ih =>
    intro k c hc
    unfold connect_loop at hc
    split_ifs at hc with h
    · simp only [List.mem_cons] at hc
      rcases hc with hc | hc
      · exact hc
      · exact ih (k + 1) c hc
    · simpa using hc

theorem connect_loop_done (sock : Int) (connect : Nat → Int) :
    ∀ n fuel k, (∀ j, j < n → connect (k + j) ≠ 0) → connect (k + n) = 0 → n < fuel →
      connect_loop sock connect fuel k =
        (List.replicate (n + 1) (Call.connect_socket sock CLIENT_FILE), true) := by
  intro n
  induction n with
  | zero =>
    intro fuel k _ h0 hf
    obtain ⟨f, rfl⟩ : ∃ f, fuel = f + 1 := ⟨fuel - 1, by omega⟩
    unfold connect_loop
    simp at h0
    simp [h0]
  | succ n ih =>
    intro fuel k hne h0 hf
    obtain ⟨f, rfl⟩ : ∃ f, fuel = f + 1 := ⟨fuel - 1, by omega⟩
    unfold connect_loop
    have hk : connect k ≠ 0 := by simpa using hne 0 (by omega)
    have hrest := ih f (k + 1) (fun j hj => by
      have := hne (j + 1) (by omega)
      rwa [show k + 1 + j = k + (j + 1) by omega]) (by
      rwa [show k + 1 + n = k + (n + 1) by omega]) (by omega)
    rw [if_pos hk, hrest]
    simp [List.replicate_succ]

theorem connect_loop_stuck (sock : Int) (connect : Nat → Int) :
    ∀ fuel k, (∀ j, j < fuel → connect (k + j) ≠ 0) →
      (connect_loop sock connect fuel k).2 = false := by
  intro fuel
  induction fuel with
  | zero => intro k _; rfl
  | succ fuel ih =>
    intro k hne
    unfold connect_loop
    have hk : connect k ≠ 0 := by simpa using hne 0 (by omega)
    rw [if_pos hk]
    exact ih (k + 1) (fun j hj => by
      have := hne (j + 1) (by omega)
      rwa [show k + 1 + j = k + (j + 1) by omega])

theorem connect_loop_no_write (sock : Int) (connect : Nat → Int) (fuel k : Nat) :
    (connect_loop sock connect fuel k).1.filter Call.isWriteFd = [] := by
  rw [List.filter_eq_nil_iff]
  intro c hc
  rw [connect_loop_calls sock connect fuel k c hc]
  simp [Call.isWriteFd]

/-- A run that sees a plane count other than one ends in an `assert`, and none of its calls
exports the handle or touches a socket. -/
theorem export_multi_plane (drv : Answers) (fuel : Nat) (hp : drv.num_planes ≠ 1) :
    (∃ a, (export_framebuffer drv fuel).2 = ExportEnd.aborted a) ∧
      ∀ c ∈ (export_framebuffer drv fuel).1, c.transfers = false := by
  unfold export_framebuffer
  by_cases h1 : drv.framebuffer_complete = true
  · by_cases h2 : drv.image_created = true
    · by_cases h3 : drv.queried = true
      · simp [h1, h2, h3, hp, Call.transfers]
      · simp [h1, h2, h3, Call.transfers]
    · simp [h1, h2, Call.transfers]
  · simp [h1, Call.transfers]

theorem export_plane_assert (drv : Answers) (fuel : Nat)
    (h1 : drv.framebuffer_complete = true) (h2 : drv.image_created = true)
    (h3 : drv.queried = true) (hp : drv.num_planes ≠ 1) :
    (export_framebuffer drv fuel).2 = ExportEnd.aborted Assertion.single_plane := by
  unfold export_framebuffer
  simp [h1, h2, h3, hp]

/-- The calls of a run on which every `assert` passes, up to the connection loop. -/
theorem export_good (drv : Answers) (fuel : Nat)
    (h1 : drv.framebuffer_complete = true) (h2 : drv.image_created = true)
    (h3 : drv.queried = true) (hp : drv.num_planes = 1) (h4 : drv.exported = true) :
    export_framebuffer drv fuel =
      if (connect_loop drv.sock drv.connect fuel 0).2 = true then
        ([Call.eglGetCurrentDisplay, Call.eglGetCurrentContext, Call.glGenFramebuffers,
          Call.glBindFramebuffer drv.fbo, Call.glGenTextures,
          Call.glBindTexture drv.texture, Call.glTexImage2D WINDOW_WIDTH WINDOW_HEIGHT,
          Call.glTexParameteri, Call.glTexParameteri,
          Call.glFramebufferTexture2D drv.texture, Call.glCheckFramebufferStatus,
          Call.glBindTexture 0, Call.eglCreateImage drv.texture, Call.glFlush,
          Call.eglGetProcAddress "eglExportDMABUFImageQueryMESA",
          Call.eglExportDMABUFImageQueryMESA,
          Call.eglGetProcAddress "eglExportDMABUFImageMESA", Call.eglExportDMABUFImageMESA,
          Call.create_socket SERVER_FILE] ++ (connect_loop drv.sock drv.connect fuel 0).1 ++
          [Call.write_fd drv.sock drv.texture_dmabuf_fd
            ⟨drv.fourcc, drv.modifiers, drv.stride, drv.offset⟩,
           Call.close drv.sock, Call.close drv.texture_dmabuf_fd, Call.glBindFramebuffer 0],
         ExportEnd.returned drv.fbo)
      else
        ([Call.eglGetCurrentDisplay, Call.eglGetCurrentContext, Call.glGenFramebuffers,
          Call.glBindFramebuffer drv.fbo, Call.glGenTextures,
          Call.glBindTexture drv.texture, Call.glTexImage2D WINDOW_WIDTH WINDOW_HEIGHT,
          Call.glTexParameteri, Call.glTexParameteri,
          Call.glFramebufferTexture2D drv.texture, Call.glCheckFramebufferStatus,
          Call.glBindTexture 0, Call.eglCreateImage drv.texture, Call.glFlush,
          Call.eglGetProcAddress "eglExportDMABUFImageQueryMESA",
          Call.eglExportDMABUFImageQueryMESA,
          Call.eglGetProcAddress "eglExportDMABUFImageMESA", Call.eglExportDMABUFImageMESA,
          Call.create_socket SERVER_FILE] ++ (connect_loop drv.sock drv.connect fuel 0).1,
         ExportEnd.retrying) := by
  unfold export_framebuffer
  simp only [h1, h2, h3, hp, h4, not_true_eq_false, if_false, Bool.not_eq_true]
  by_cases hl : (connect_loop drv.sock drv.connect fuel 0).2 = true
  · simp [hl]
  · simp [hl]

/-- A run on which every `assert` passes and the connection loop ends returns, after exactly
one `write_fd`, which carries the descriptor and the whole record. -/
theorem export_sends_once (drv : Answers) (fuel k : Nat)
    (h1 : drv.framebuffer_complete = true) (h2 : drv.image_created = true)
    (h3 : drv.queried = true) (hp : drv.num_planes = 1) (h4 : drv.exported = true)
    (hne : ∀ j, j < k → drv.connect j ≠ 0) (hk : drv.connect k = 0) (hf : k < fuel) :
    (export_framebuffer drv fuel).2 = ExportEnd.returned drv.fbo ∧
      (export_framebuffer drv fuel).1.filter Call.isWriteFd =
        [Call.write_fd drv.sock drv.texture_dmabuf_fd
          ⟨drv.fourcc, drv.modifiers, drv.stride, drv.offset⟩] := by
  have hloop := connect_loop_done drv.sock drv.connect k fuel 0
    (fun j hj => by simpa using hne j hj) (by simpa using hk) hf
  have hnw := connect_loop_no_write drv.sock drv.connect fuel 0
  rw [export_good drv fuel h1 h2 h3 hp h4]
  have h2 : (connect_loop drv.sock drv.connect fuel 0).2 = true := by rw [hloop]
  rw [if_pos h2]
  refine ⟨rfl, ?_⟩
  simp only [List.filter_append, hnw]
  simp [Call.isWriteFd, List.filter]

/-- A run on which every `assert` passes is still in the connection loop, with no
`write_fd` made, as long as every call of `connect_socket` so far has failed. -/
theorem export_retrying (drv : Answers) (fuel : Nat)
    (h1 : drv.framebuffer_complete = true) (h2 : drv.image_created = true)
    (h3 : drv.queried = true) (hp : drv.num_planes = 1) (h4 : drv.exported = true)
    (hne : ∀ j, j < fuel → drv.connect j ≠ 0) :
    (export_framebuffer drv fuel).2 = ExportEnd.retrying ∧
      (export_framebuffer drv fuel).1.filter Call.isWriteFd = [] := by
  have hloop := connect_loop_stuck drv.sock drv.connect fuel 0
    (fun j hj => by simpa using hne j hj)
  have hnw := connect_loop_no_write drv.sock drv.connect fuel 0
  rw [export_good drv fuel h1 h2 h3 hp h4]
  have h2 : ¬ ((connect_loop drv.sock drv.connect fuel 0).2 = true) := by simp [hloop]
  rw [if_neg h2]
  refine ⟨rfl, ?_⟩
  simp only [List.filter_append, hnw]
  simp [Call.isWriteFd, List.filter]

/-- No run makes more than one `write_fd`, and a `write_fd` carries the descriptor and
the whole record. -/
theorem export_writes (drv : Answers) (fuel : Nat) :
    (export_framebuffer drv fuel).1.filter Call.isWriteFd = [] ∨
      (export_framebuffer drv fuel).1.filter Call.isWriteFd =
        [Call.write_fd drv.sock drv.texture_dmabuf_fd
          ⟨drv.fourcc, drv.modifiers, drv.stride, drv.offset⟩] := by
  have hnw := connect_loop_no_write drv.sock drv.connect fuel 0
  by_cases h1 : drv.framebuffer_complete = true
  · by_cases h2 : drv.image_created = true
    · by_cases h3 : drv.queried = true
      · by_cases hp : drv.num_planes = 1
        · by_cases h4 : drv.exported = true
          · rw [export_good drv fuel h1 h2 h3 hp h4]
            by_cases hl : (connect_loop drv.sock drv.connect fuel 0).2 = true
            · right
              rw [if_pos hl]
              simp only [List.filter_append, hnw]
              simp [Call.isWriteFd, List.filter]
            · left
              rw [if_neg hl]
              simp only [List.filter_append, hnw]
              simp [Call.isWriteFd, List.filter]
          · left
            unfold export_framebuffer
            simp [h1, h2, h3, hp, h4, Call.isWriteFd, List.filter]
        · left
          unfold export_framebuffer
          simp [h1, h2, h3, hp, Call.isWriteFd, List.filter]
      · left
        unfold export_framebuffer
        simp [h1, h2, h3, Call.isWriteFd, List.filter]
    · left
      unfold export_framebuffer
      simp [h1, h2, Call.isWriteFd, List.filter]
  · left
    unfold export_framebuffer
    simp [h1, Call.isWriteFd, List.filter]


theorem rotate_data_sq (e : Nat) (data : List Int) :
    rotate_data data (e * e) =
      (List.range (e / 2 * (e / 2))).foldlM (rotate_body e (e / 2)) data := by
  unfold rotate_data
  simp only [Nat.sqrt_eq, if_true]

theorem export_allocates (drv : Answers) (fuel : Nat) :
    Call.glTexImage2D WINDOW_WIDTH WINDOW_HEIGHT ∈ (export_framebuffer drv fuel).1 := by
  unfold export_framebuffer
  by_cases h1 : drv.framebuffer_complete = true
  · by_cases h2 : drv.image_created = true
    · by_cases h3 : drv.queried = true
      · by_cases hp : drv.num_planes = 1
        · by_cases h4 : drv.exported = true
          · by_cases hl : (connect_loop drv.sock drv.connect fuel 0).2 = true
            · simp [h1, h2, h3, hp, h4, hl]
            · simp [h1, h2, h3, hp, h4, hl]
          · simp [h1, h2, h3, hp, h4]
        · simp [h1, h2, h3, hp]
      · simp [h1, h2, h3]
    · simp [h1, h2]
  · simp [h1]

/-! ## The claims -/

/-- C1, as stated, fails: on the 2 × 2 array `[1, 2, 3, 4]` one call of `rotate_data`
gives `[2, 4, 1, 3]`, so the top-right pixel is the old bottom-right pixel and not the old
top-left one; and one call on the pattern of `create_data(256 * 256)` does not give the
quadrants blue, red, white, green. -/
theorem rotate_data_not_clockwise :
    (([1, 2, 3, 4] : List Int).length = 2 * 2 ∧ 2 % 2 = 0 ∧
      rotate_data [1, 2, 3, 4] (2 * 2) = Except.ok [2, 4, 1, 3] ∧
      ¬ MovedClockwise 2 [1, 2, 3, 4] [2, 4, 1, 3]) ∧
    ∃ pattern out,
      create_data (List.replicate (256 * 256) 0) (256 * 256) = Except.ok pattern ∧
      rotate_data pattern (256 * 256) = Except.ok out ∧
      ¬ HasQuadrants 256 out blue red white green := by
  refine ⟨⟨rfl, rfl, ?_, ?_⟩, ?_⟩
  · rw [rotate_data_sq]
    rfl
  · intro h
    have h0 := (h 0 0 (by decide) (by decide)).1
    revert h0
    decide
  · obtain ⟨p, hp, hq⟩ := create_data_quadrants 256 (List.replicate (256 * 256) 0) (List.length_replicate _ _)
    obtain ⟨out, ho, hol, hm⟩ := rotate_data_moves 256 p hq.1
    refine ⟨p, out, hp, ho, ?_⟩
    intro hbad
    have h1 := (moved_quadrants hq hol hm).2 0 0 (by decide) (by decide)
    have h2 := hbad.2 0 0 (by decide) (by decide)
    have h3 := h1.1.symm.trans h2.1
    revert h3
    decide

/-- C1, amended: one call of `rotate_data` on a square array of even edge `e` with half edge
`h = e / 2` returns, and moves every quadrant's content one position counter-clockwise
(top-left to bottom-left to bottom-right to top-right to top-left): for all `x, y < h` the
new pixel at `(x, y)` is the old one at `(x + h, y)`, the new pixel at `(x + h, y)` is the
old one at `(x + h, y + h)`, the new pixel at `(x + h, y + h)` is the old one at
`(x, y + h)`, and the new pixel at `(x, y + h)` is the old one at `(x, y)`. -/
theorem rotate_data_counterclockwise (e size : Nat) (data : List Int) (hsq : size = e * e)
    (hlen : data.length = size) (_heven : e % 2 = 0) :
    ∃ out, rotate_data data size = Except.ok out ∧ out.length = size ∧
      ∀ x y, x < e / 2 → y < e / 2 →
        out[x + y * e]? = data[(x + e / 2) + y * e]? ∧
        out[(x + e / 2) + y * e]? = data[(x + e / 2) + (y + e / 2) * e]? ∧
        out[(x + e / 2) + (y + e / 2) * e]? = data[x + (y + e / 2) * e]? ∧
        out[x + (y + e / 2) * e]? = data[x + y * e]? := by
  subst hsq
  obtain ⟨out, ho, hol, hm⟩ := rotate_data_moves e data hlen
  exact ⟨out, ho, hol, hm⟩

/-- Witness of C1 amended: on `[1, 2, 3, 4]` with edge 2, and on the pattern of
`create_data(256 * 256)`, whose quadrants red, green, blue, white (top-left, top-right,
bottom-left, bottom-right) become green, white, red, blue. -/
theorem rotate_data_counterclockwise_witness :
    (([1, 2, 3, 4] : List Int).length = 2 * 2 ∧ 2 % 2 = 0 ∧
      ∃ out, rotate_data [1, 2, 3, 4] (2 * 2) = Except.ok out ∧
        out[0]? = ([1, 2, 3, 4] : List Int)[1]? ∧ out[1]? = ([1, 2, 3, 4] : List Int)[3]? ∧
        out[3]? = ([1, 2, 3, 4] : List Int)[2]? ∧ out[2]? = ([1, 2, 3, 4] : List Int)[0]?) ∧
    ∃ pattern out,
      create_data (List.replicate (256 * 256) 0) (256 * 256) = Except.ok pattern ∧
      HasQuadrants 256 pattern red green blue white ∧
      rotate_data pattern (256 * 256) = Except.ok out ∧
      HasQuadrants 256 out green white red blue := by
  refine ⟨⟨rfl, rfl, ?_⟩, ?_⟩
  · obtain ⟨out, ho, _, hm⟩ :=
      rotate_data_counterclockwise 2 (2 * 2) [1, 2, 3, 4] rfl rfl rfl
    exact ⟨out, ho, hm 0 0 (by decide) (by decide)⟩
  · obtain ⟨p, hp, hq⟩ := create_data_quadrants 256 (List.replicate (256 * 256) 0) (List.length_replicate _ _)
    obtain ⟨out, ho, hol, hm⟩ :=
      rotate_data_counterclockwise 256 (256 * 256) p rfl hq.1 rfl
    exact ⟨p, out, hp, hq, ho, moved_quadrants hq hol hm⟩

/-- C2: four calls of `rotate_data` in succession on an array whose length is a perfect
square `e * e` (`e` even or odd) all return, and the last result is the original array. -/
theorem rotate_data_four_times (e size : Nat) (data : List Int) (hsq : size = e * e)
    (hlen : data.length = size) : rotate_four data size = Except.ok data := by
  subst hsq
  exact rotate_four_id e data hlen

/-- Witness of C2: an odd edge (3 × 3), and the pattern of `create_data(256 * 256)`, whose
quadrants are red, green, blue, white again after four rotations. -/
theorem rotate_data_four_times_witness :
    (([1, 2, 3, 4, 5, 6, 7, 8, 9] : List Int).length = 3 * 3 ∧
      rotate_four [1, 2, 3, 4, 5, 6, 7, 8, 9] (3 * 3) =
        Except.ok [1, 2, 3, 4, 5, 6, 7, 8, 9]) ∧
    ∃ pattern,
      create_data (List.replicate (256 * 256) 0) (256 * 256) = Except.ok pattern ∧
      rotate_four pattern (256 * 256) = Except.ok pattern ∧
      HasQuadrants 256 pattern red green blue white := by
  refine ⟨⟨rfl, rotate_data_four_times 3 (3 * 3) _ rfl rfl⟩, ?_⟩
  obtain ⟨p, hp, hq⟩ := create_data_quadrants 256 (List.replicate (256 * 256) 0) (List.length_replicate _ _)
  exact ⟨p, hp, rotate_data_four_times 256 (256 * 256) p rfl hq.1, hq⟩

/-- C3: on a square array of even edge whose quadrants are the flat colours `a` (top-left),
`b` (top-right), `c` (bottom-right), `d` (bottom-left), `rotate_data` returns an array with
four flat quadrants again; its colours, read top-left, top-right, bottom-right, bottom-left,
are `(a, b, c, d)` shifted cyclically by one step, hence a rearrangement of `a, b, c, d`
that loses and duplicates none. -/
theorem rotate_data_cyclic_shift (e size : Nat) (data : List Int) (a b c d : Int)
    (hsq : size = e * e) (_heven : e % 2 = 0) (hq : HasQuadrants e data a b d c) :
    ∃ out tl tr br bl, rotate_data data size = Except.ok out ∧
      HasQuadrants e out tl tr bl br ∧
      [tl, tr, br, bl] = [a, b, c, d].rotate 1 ∧
      List.Perm [tl, tr, br, bl] [a, b, c, d] := by
  subst hsq
  obtain ⟨out, ho, hol, hm⟩ := rotate_data_moves e data hq.1
  refine ⟨out, b, c, d, a, ho, moved_quadrants hq hol hm, rfl, ?_⟩
  have hp : ([a] ++ [b, c, d]).Perm ([b, c, d] ++ [a]) := List.perm_append_comm
  exact hp.symm

/-- Witness of C3: the 2 × 2 array `[1, 2, 3, 4]`, whose quadrants are its four cells. -/
theorem rotate_data_cyclic_shift_witness :
    2 * 2 = 2 * 2 ∧ 2 % 2 = 0 ∧ HasQuadrants 2 [1, 2, 3, 4] 1 2 3 4 ∧
    ∃ out tl tr br bl, rotate_data [1, 2, 3, 4] (2 * 2) = Except.ok out ∧
      HasQuadrants 2 out tl tr bl br ∧
      [tl, tr, br, bl] = ([1, 2, 4, 3] : List Int).rotate 1 ∧
      List.Perm [tl, tr, br, bl] [1, 2, 4, 3] := by
  have hq : HasQuadrants 2 [1, 2, 3, 4] 1 2 3 4 := by
    refine ⟨rfl, ?_⟩
    intro x y hx hy
    have hx0 : x = 0 := by omega
    have hy0 : y = 0 := by omega
    subst hx0 hy0
    decide
  exact ⟨rfl, rfl, hq, rotate_data_cyclic_shift 2 (2 * 2) [1, 2, 3, 4] 1 2 4 3 rfl rfl hq⟩

/-- C7: for a perfect square `size = e * e` with even edge `e` and `h = e / 2`,
`create_data(size)` returns an array of length `size` whose element at index `x + y * e`
(`x, y < e`) is red `0x000000FF` when `x < h` and `y < h`, green `0x0000FF00` when `x ≥ h`
and `y < h`, blue `0x00FF0000` when `x < h` and `y ≥ h`, and white `0x00FFFFFF` when `x ≥ h`
and `y ≥ h`; the content of the fresh block does not matter. -/
theorem create_data_pattern (e size : Nat) (fresh : List Int) (hsq : size = e * e)
    (hlen : fresh.length = size) (_heven : e % 2 = 0) :
    ∃ data, create_data fresh size = Except.ok data ∧ data.length = size ∧
      ∀ x y, x < e → y < e →
        (x < e / 2 → y < e / 2 → data[x + y * e]? = some 0x000000FF) ∧
        (e / 2 ≤ x → y < e / 2 → data[x + y * e]? = some 0x0000FF00) ∧
        (x < e / 2 → e / 2 ≤ y → data[x + y * e]? = some 0x00FF0000) ∧
        (e / 2 ≤ x → e / 2 ≤ y → data[x + y * e]? = some 0x00FFFFFF) := by
  subst hsq
  obtain ⟨d, h1, h2, h3⟩ := create_data_cells e fresh hlen
  refine ⟨d, h1, h2, ?_⟩
  intro x y hx hy
  refine ⟨?_, ?_, ?_, ?_⟩
  · intro a1 a2
    rw [h3 x y hx hy, if_pos a1, if_pos a2]; rfl
  · intro a1 a2
    rw [h3 x y hx hy, if_neg (by omega), if_pos a2]; rfl
  · intro a1 a2
    rw [h3 x y hx hy, if_pos a1, if_neg (by omega)]; rfl
  · intro a1 a2
    rw [h3 x y hx hy, if_neg (by omega), if_neg (by omega)]; rfl

/-- Witness of C7: `create_data(256 * 256)` on a zeroed block; the first pixel of each
quadrant. -/
theorem create_data_pattern_witness :
    256 * 256 = 256 * 256 ∧ (List.replicate (256 * 256) (0 : Int)).length = 256 * 256 ∧
    256 % 2 = 0 ∧
    ∃ data, create_data (List.replicate (256 * 256) 0) (256 * 256) = Except.ok data ∧
      data.length = 256 * 256 ∧
      data[0 + 0 * 256]? = some 0x000000FF ∧ data[128 + 0 * 256]? = some 0x0000FF00 ∧
      data[0 + 128 * 256]? = some 0x00FF0000 ∧ data[128 + 128 * 256]? = some 0x00FFFFFF := by
  refine ⟨rfl, List.length_replicate _ _, rfl, ?_⟩
  obtain ⟨d, h1, h2, h3⟩ := create_data_pattern 256 (256 * 256)
    (List.replicate (256 * 256) 0) rfl (List.length_replicate _ _) rfl
  exact ⟨d, h1, h2,
    (h3 0 0 (by decide) (by decide)).1 (by decide) (by decide),
    (h3 128 0 (by decide) (by decide)).2.1 (by decide) (by decide),
    (h3 0 128 (by decide) (by decide)).2.2.1 (by decide) (by decide),
    (h3 128 128 (by decide) (by decide)).2.2.2 (by decide) (by decide)⟩

/-- C10: on an array of length `e * e` (`e` even or odd, also 0 and 1) with `h = e / 2`,
`rotate_data` returns without any access outside the array (every read and write is bounds
checked); each iteration `i < h * h` works on the four indices `rotate_indices e h i`, which
are all below `e * e`, pairwise distinct, and disjoint from those of every other iteration;
and every element whose column or row is at least `2 * h` is unchanged. -/
theorem rotate_data_in_bounds (e size : Nat) (data : List Int) (hsq : size = e * e)
    (hlen : data.length = size) :
    (∃ out, rotate_data data size = Except.ok out ∧ out.length = size ∧
      ∀ c r, c < e → r < e → (2 * (e / 2) ≤ c ∨ 2 * (e / 2) ≤ r) →
        out[c + r * e]? = data[c + r * e]?) ∧
    (∀ d i, rotate_body e (e / 2) d i = rotate_on d (rotate_indices e (e / 2) i)) ∧
    (∀ i, i < e / 2 * (e / 2) →
      (∀ j ∈ rotate_indices e (e / 2) i, j < size) ∧ (rotate_indices e (e / 2) i).Nodup) ∧
    (∀ i k, i < e / 2 * (e / 2) → k < e / 2 * (e / 2) → i ≠ k →
      (rotate_indices e (e / 2) i).Disjoint (rotate_indices e (e / 2) k)) := by
  subst hsq
  have hh : 2 * (e / 2) ≤ e := by omega
  exact ⟨rotate_data_outside e data hlen, fun d i => rotate_body_on e (e / 2) d i,
    fun i hi => ⟨rotate_indices_lt hh hi, rotate_indices_nodup hh hi⟩,
    fun i k hi hk hik => rotate_indices_disjoint hh hi hk hik⟩

/-- Witness of C10: the 3 × 3 array `[1, ..., 9]` (odd edge): the single iteration works on
the indices 0, 1, 4, 3, and the last row and column stay. -/
theorem rotate_data_in_bounds_witness :
    ([1, 2, 3, 4, 5, 6, 7, 8, 9] : List Int).length = 3 * 3 ∧
    (∃ out, rotate_data [1, 2, 3, 4, 5, 6, 7, 8, 9] (3 * 3) = Except.ok out ∧
      out.length = 3 * 3 ∧ out[2 + 0 * 3]? = some 3 ∧ out[0 + 2 * 3]? = some 7 ∧
      out[2 + 2 * 3]? = some 9) ∧
    (∀ j ∈ rotate_indices 3 (3 / 2) 0, j < 3 * 3) ∧
    (rotate_indices 3 (3 / 2) 0).Nodup ∧
    rotate_indices 3 (3 / 2) 0 = [0, 1, 4, 3] ∧
    rotate_data [1, 2, 3, 4, 5, 6, 7, 8, 9] (3 * 3) =
      Except.ok [2, 5, 3, 1, 4, 6, 7, 8, 9] ∧
    rotate_data [7] (1 * 1) = Except.ok [7] ∧
    rotate_data [] (0 * 0) = Except.ok [] := by
  obtain ⟨⟨out, h1, h2, h3⟩, _, h4, _⟩ :=
    rotate_data_in_bounds 3 (3 * 3) [1, 2, 3, 4, 5, 6, 7, 8, 9] rfl rfl
  refine ⟨rfl, ⟨out, h1, h2, ?_, ?_, ?_⟩, (h4 0 (by decide)).1, (h4 0 (by decide)).2, rfl,
    ?_, ?_, ?_⟩
  · exact h3 2 0 (by decide) (by decide) (by decide)
  · exact h3 0 2 (by decide) (by decide) (by decide)
  · exact h3 2 2 (by decide) (by decide) (by decide)
  · rw [rotate_data_sq]; rfl
  · rw [rotate_data_sq]; rfl
  · rw [rotate_data_sq]; rfl

/-- C4: for every record (fourcc `F`, stride `S`, offset `O`) and descriptor `fd` received,
the attribute list built for `eglCreateImage` gives `EGL_LINUX_DRM_FOURCC_EXT = F`,
`EGL_DMA_BUF_PLANE0_FD_EXT = fd`, `EGL_DMA_BUF_PLANE0_OFFSET_EXT = O`,
`EGL_DMA_BUF_PLANE0_PITCH_EXT = S`, `EGL_WIDTH = 640`, `EGL_HEIGHT = 480`, and ends with
`EGL_NONE`; and 640 × 480 is the size with which every run of `export_framebuffer`
allocates the exported texture. -/
theorem attribute_list_layout (md : texture_storage_metadata_t) (fd : Int) :
    attrib_value (attribute_list md fd) EGLName.EGL_LINUX_DRM_FOURCC_EXT = some md.fourcc ∧
    attrib_value (attribute_list md fd) EGLName.EGL_DMA_BUF_PLANE0_FD_EXT = some fd ∧
    attrib_value (attribute_list md fd) EGLName.EGL_DMA_BUF_PLANE0_OFFSET_EXT =
      some md.offset ∧
    attrib_value (attribute_list md fd) EGLName.EGL_DMA_BUF_PLANE0_PITCH_EXT =
      some md.stride ∧
    attrib_value (attribute_list md fd) EGLName.EGL_WIDTH = some 640 ∧
    attrib_value (attribute_list md fd) EGLName.EGL_HEIGHT = some 480 ∧
    (attribute_list md fd).getLast? = some (EGLAttrib.name EGLName.EGL_NONE) ∧
    ∀ drv fuel, Call.glTexImage2D 640 480 ∈ (export_framebuffer drv fuel).1 := by
  refine ⟨rfl, rfl, rfl, rfl, rfl, rfl, rfl, ?_⟩
  intro drv fuel
  exact export_allocates drv fuel

/-- C5: for every 64-bit modifier `M`, the values the attribute list gives to
`EGL_DMA_BUF_PLANE0_MODIFIER_LO_EXT` and `EGL_DMA_BUF_PLANE0_MODIFIER_HI_EXT` are both below
`2^32`, and `HI * 2^32 + LO = M`, that is `LO = M mod 2^32` and `HI = M div 2^32`. -/
theorem modifier_halves (md : texture_storage_metadata_t) (fd : Int)
    (hm : md.modifiers < 2 ^ 64) :
    attrib_value (attribute_list md fd) EGLName.EGL_DMA_BUF_PLANE0_MODIFIER_LO_EXT =
      some (modifier_lo md.modifiers : Int) ∧
    attrib_value (attribute_list md fd) EGLName.EGL_DMA_BUF_PLANE0_MODIFIER_HI_EXT =
      some (modifier_hi md.modifiers : Int) ∧
    modifier_lo md.modifiers < 2 ^ 32 ∧ modifier_hi md.modifiers < 2 ^ 32 ∧
    modifier_hi md.modifiers * 2 ^ 32 + modifier_lo md.modifiers = md.modifiers ∧
    modifier_lo md.modifiers = md.modifiers % 2 ^ 32 ∧
    modifier_hi md.modifiers = md.modifiers / 2 ^ 32 := by
  have h1 := modifier_lo_eq md.modifiers
  have h2 := modifier_hi_eq md.modifiers hm
  refine ⟨rfl, rfl, ?_, ?_, ?_, h1, h2⟩
  · omega
  · omega
  · omega

/-- Witness of C5: a modifier with bits set in both halves, and the largest one. -/
theorem modifier_halves_witness :
    (0x0100000000000001 < 2 ^ 64 ∧ modifier_lo 0x0100000000000001 = 1 ∧
      modifier_hi 0x0100000000000001 = 0x01000000) ∧
    (2 ^ 64 - 1 < 2 ^ 64 ∧ modifier_lo (2 ^ 64 - 1) = 2 ^ 32 - 1 ∧
      modifier_hi (2 ^ 64 - 1) = 2 ^ 32 - 1) := by
  have a := modifier_halves ⟨875713112, 0x0100000000000001, 2560, 0⟩ 5 (by decide)
  have b := modifier_halves ⟨875713112, 2 ^ 64 - 1, 2560, 0⟩ 5 (by decide)
  exact ⟨⟨by decide, a.2.2.2.2.2.1.trans (by decide), a.2.2.2.2.2.2.trans (by decide)⟩,
    ⟨by decide, b.2.2.2.2.2.1.trans (by decide), b.2.2.2.2.2.2.trans (by decide)⟩⟩

/-- C6: with the driver's answers as inputs, a run of `export_framebuffer` that is told a
plane count other than 1 ends in an `assert`, and none of its calls exports the handle,
creates or connects a socket, or is `write_fd`; when the run gets as far as the query and the
query succeeds, the `assert` is the one on the plane count.  When the query succeeds with
plane count 1 and the export succeeds, the run goes into the connection loop; once that loop
ends (call number `k` of `connect_socket` is the first to return 0, and the fuel covers it)
the run returns after exactly one `write_fd`, which carries the descriptor together with
the whole record, and while every `connect_socket` fails no `write_fd` is made.  No run
makes any other `write_fd`. -/
theorem export_framebuffer_single_plane (drv : Answers) (fuel : Nat) :
    (drv.num_planes ≠ 1 →
      (∃ a, (export_framebuffer drv fuel).2 = ExportEnd.aborted a) ∧
      (∀ c ∈ (export_framebuffer drv fuel).1, c.transfers = false) ∧
      (drv.framebuffer_complete = true → drv.image_created = true → drv.queried = true →
        (export_framebuffer drv fuel).2 = ExportEnd.aborted Assertion.single_plane)) ∧
    (drv.framebuffer_complete = true → drv.image_created = true → drv.queried = true →
      drv.num_planes = 1 → drv.exported = true →
      (∀ k, (∀ j, j < k → drv.connect j ≠ 0) → drv.connect k = 0 → k < fuel →
        (export_framebuffer drv fuel).2 = ExportEnd.returned drv.fbo ∧
        (export_framebuffer drv fuel).1.filter Call.isWriteFd =
          [Call.write_fd drv.sock drv.texture_dmabuf_fd
            ⟨drv.fourcc, drv.modifiers, drv.stride, drv.offset⟩]) ∧
      ((∀ j, j < fuel → drv.connect j ≠ 0) →
        (export_framebuffer drv fuel).2 = ExportEnd.retrying ∧
        (export_framebuffer drv fuel).1.filter Call.isWriteFd = [])) ∧
    ((export_framebuffer drv fuel).1.filter Call.isWriteFd = [] ∨
      (export_framebuffer drv fuel).1.filter Call.isWriteFd =
        [Call.write_fd drv.sock drv.texture_dmabuf_fd
          ⟨drv.fourcc, drv.modifiers, drv.stride, drv.offset⟩]) := by
  refine ⟨?_, ?_, export_writes drv fuel⟩
  · intro hp
    exact ⟨(export_multi_plane drv fuel hp).1, (export_multi_plane drv fuel hp).2,
      fun h1 h2 h3 => export_plane_assert drv fuel h1 h2 h3 hp⟩
  · intro h1 h2 h3 hp h4
    exact ⟨fun k hne hk hf => export_sends_once drv fuel k h1 h2 h3 hp h4 hne hk hf,
      fun hne => export_retrying drv fuel h1 h2 h3 hp h4 hne⟩

/-- Witness of C6: a driver that reports two planes, and one that reports a single plane
with a peer that accepts the third connection attempt. -/
theorem export_framebuffer_single_plane_witness :
    (export_framebuffer
        ⟨1, 2, true, true, true, 875713112, 2, 0, true, 7, 2560, 0, 3, fun _ => 0⟩ 5 =
      ([Call.eglGetCurrentDisplay, Call.eglGetCurrentContext, Call.glGenFramebuffers,
        Call.glBindFramebuffer 1, Call.glGenTextures, Call.glBindTexture 2,
        Call.glTexImage2D 640 480, Call.glTexParameteri, Call.glTexParameteri,
        Call.glFramebufferTexture2D 2, Call.glCheckFramebufferStatus, Call.glBindTexture 0,
        Call.eglCreateImage 2, Call.glFlush,
        Call.eglGetProcAddress "eglExportDMABUFImageQueryMESA",
        Call.eglExportDMABUFImageQueryMESA],
       ExportEnd.aborted Assertion.single_plane) ∧
      ∀ c ∈ (export_framebuffer
        ⟨1, 2, true, true, true, 875713112, 2, 0, true, 7, 2560, 0, 3, fun _ => 0⟩ 5).1,
        c.transfers = false) ∧
    ((export_framebuffer
        ⟨1, 2, true, true, true, 875713112, 1, 0, true, 7, 2560, 0, 3,
          fun k => if k < 2 then -1 else 0⟩ 5).2 = ExportEnd.returned 1 ∧
      (export_framebuffer
        ⟨1, 2, true, true, true, 875713112, 1, 0, true, 7, 2560, 0, 3,
          fun k => if k < 2 then -1 else 0⟩ 5).1.filter Call.isWriteFd =
        [Call.write_fd 3 7 ⟨875713112, 0, 2560, 0⟩]) := by
  have a := (export_framebuffer_single_plane
    ⟨1, 2, true, true, true, 875713112, 2, 0, true, 7, 2560, 0, 3, fun _ => 0⟩ 5).1
    (by decide)
  have b := (export_framebuffer_single_plane
    ⟨1, 2, true, true, true, 875713112, 1, 0, true, 7, 2560, 0, 3,
      fun k => if k < 2 then -1 else 0⟩ 5).2.1 rfl rfl rfl rfl rfl
  have b := b.1 2 (by intro j hj; interval_cases j <;> decide) (by decide) (by decide)
  exact ⟨⟨by decide, a.2.1⟩, b⟩

/-- C8: for every argument vector that is not exactly one argument equal to `server` or
`client`, `parse_arguments` prints the usage text and ends the process instead of
returning; the exit status is 0 exactly when the single argument is `--help`, and non-zero
(the argument of `exit` is -1, seen by the parent as 255) otherwise. -/
theorem parse_arguments_rejects (argv : List String)
    (h : ¬ (argv.length = 2 ∧ (argv[1]? = some "server" ∨ argv[1]? = some "client"))) :
    (parse_arguments argv).printed = [help_text] ∧
    ∃ status, (parse_arguments argv).ending = ParseEnd.exited status ∧
      (argv.length = 2 ∧ argv[1]? = some "--help" → status = 0 ∧ exit_status status = 0) ∧
      (¬ (argv.length = 2 ∧ argv[1]? = some "--help") →
        status = -1 ∧ exit_status status = 255 ∧ exit_status status ≠ 0) := by
  by_cases hl : argv.length = 2
  · obtain ⟨prog, arg, rfl⟩ := length_two hl
    have hs : arg ≠ "server" := fun hq => h ⟨rfl, Or.inl (by simp [hq])⟩
    have hc : arg ≠ "client" := fun hq => h ⟨rfl, Or.inr (by simp [hq])⟩
    rw [parse_arguments_two, if_neg hs, if_neg hc]
    by_cases hh : arg = "--help"
    · rw [if_pos hh]
      refine ⟨rfl, 0, rfl, fun _ => ⟨rfl, rfl⟩, fun hn => absurd ⟨rfl, by simp [hh]⟩ hn⟩
    · rw [if_neg hh]
      refine ⟨rfl, -1, rfl, fun hq => absurd (by simpa using hq.2) hh, fun _ => ?_⟩
      exact ⟨rfl, by decide, by decide⟩
  · rw [parse_arguments_other argv hl]
    refine ⟨rfl, -1, rfl, fun hq => absurd hq.1 hl, fun _ => ⟨rfl, by decide, by decide⟩⟩

/-- Witness of C8: no argument at all; also an unknown argument, two arguments, and
`--help`. -/
theorem parse_arguments_rejects_witness :
    (¬ (["dmabufshare"].length = 2 ∧
        (["dmabufshare"][1]? = some "server" ∨ ["dmabufshare"][1]? = some "client")) ∧
      (parse_arguments ["dmabufshare"]).printed = [help_text] ∧
      ∃ status, (parse_arguments ["dmabufshare"]).ending = ParseEnd.exited status ∧
        status = -1 ∧ exit_status status = 255) ∧
    parse_arguments ["dmabufshare", "viewer"] = ⟨[help_text], ParseEnd.exited (-1)⟩ ∧
    parse_arguments ["dmabufshare", "server", "client"] =
      ⟨[help_text], ParseEnd.exited (-1)⟩ ∧
    parse_arguments ["dmabufshare", "--help"] = ⟨[help_text], ParseEnd.exited 0⟩ := by
  have hyp : ¬ (["dmabufshare"].length = 2 ∧
      (["dmabufshare"][1]? = some "server" ∨ ["dmabufshare"][1]? = some "client")) := by
    simp
  obtain ⟨h1, status, h2, _, h3⟩ := parse_arguments_rejects ["dmabufshare"] hyp
  have h4 := h3 (by simp)
  refine ⟨⟨hyp, h1, status, h2, h4.1, h4.2.1⟩, ?_, ?_, ?_⟩
  · rw [parse_arguments_two]; simp
  · exact parse_arguments_other _ (by simp)
  · rw [parse_arguments_two]; simp

/-- C9: `parse_arguments` returns (prints nothing, does not exit) if and only if there is
exactly one argument (`argc == 2`) and it is `server` or `client`; it then sets `is_server`
to 1 for `server` and to 0 for `client`. -/
theorem parse_arguments_role (argv : List String) :
    ((∃ v, (parse_arguments argv).ending = ParseEnd.returned v) ↔
      (argv.length = 2 ∧ (argv[1]? = some "server" ∨ argv[1]? = some "client"))) ∧
    (argv.length = 2 → argv[1]? = some "server" →
      parse_arguments argv = ⟨[], ParseEnd.returned 1⟩) ∧
    (argv.length = 2 → argv[1]? = some "client" →
      parse_arguments argv = ⟨[], ParseEnd.returned 0⟩) := by
  by_cases hl : argv.length = 2
  · obtain ⟨prog, arg, rfl⟩ := length_two hl
    rw [parse_arguments_two]
    refine ⟨?_, ?_, ?_⟩
    · by_cases hs : arg = "server"
      · simp [hs]
      · by_cases hc : arg = "client"
        · simp [hc]
        · by_cases hh : arg = "--help"
          · simp [hh]
          · simp [hs, hc, hh]
    · intro _ hs
      have : arg = "server" := by simpa using hs
      simp [this]
    · intro _ hc
      have : arg = "client" := by simpa using hc
      simp [this]
  · rw [parse_arguments_other argv hl]
    exact ⟨⟨fun ⟨v, hv⟩ => by simp at hv, fun hq => absurd hq.1 hl⟩,
      fun hq => absurd hq hl, fun hq => absurd hq hl⟩

/-- Witness of C9: the two accepted invocations. -/
theorem parse_arguments_role_witness :
    parse_arguments ["dmabufshare", "server"] = ⟨[], ParseEnd.returned 1⟩ ∧
    parse_arguments ["dmabufshare", "client"] = ⟨[], ParseEnd.returned 0⟩ := by
  exact ⟨(parse_arguments_role ["dmabufshare", "server"]).2.1 rfl rfl,
    (parse_arguments_role ["dmabufshare", "client"]).2.2 rfl rfl⟩

end DmaBuf
